import Mathlib

/-!
Shallow embedding of the `straitjacket_macro` crate (src/lib.rs): the naming
builder (`StraitJacketBuilder`), the attribute parser (`parser` module), and
the generated wrapper types with their `From` conversions.

Modelling conventions:
- `proc_macro2::Ident` is modelled as its underlying `String`; `Ident::new`
  panics on a string that is not a well-formed identifier token, which we
  model as an `Option`-returning constructor `identNew`.
- The `Inflector` crate (`to_snake_case`, `to_plural`) is an external
  dependency whose code is not part of this repository; its two functions are
  modelled from the spec's description of the rules (see the doc comments of
  `toSnakeCase` and `toPlural`).
- The `syn` attribute AST (`NestedMeta`, `Meta`, `MetaNameValue`, `Path`,
  `Lit`) is embedded structurally with exactly the shape distinctions the
  parser inspects.
-/

namespace Straitjacket

/-- Characters allowed at the start of an identifier token (letter or underscore). -/
def isIdentStart (c : Char) : Bool := c.isAlpha || c = '_'

/-- Characters allowed inside an identifier token (alphanumeric or underscore). -/
def isIdentChar (c : Char) : Bool := c.isAlphanum || c = '_'

/-- Validity of a non-empty character list as an identifier token. -/
def validIdentChars : List Char → Bool
  | [] => false
  | c :: cs => isIdentStart c && cs.all isIdentChar

/-- Validity of a string as an identifier token: non-empty, starts with a
letter or underscore, rest alphanumeric or underscore. -/
def isValidIdent (s : String) : Bool := validIdentChars s.data

/-- An identifier, modelled as its string. -/
abbrev Ident := String

/-- Model of `proc_macro2::Ident::new` / `format_ident!`: panics (here `none`)
on input that is not a well-formed identifier token. -/
def identNew (s : String) : Option Ident :=
  if isValidIdent s then some s else none

/-- Modelled from the spec: ASCII lower-casing of a single character, as used
by the snake-case conversion ("lower-case the name"). The real conversion
lives in the external `Inflector` crate, not in this repository. -/
def lowerChar (c : Char) : Char :=
  match c with
  | 'A' => 'a' | 'B' => 'b' | 'C' => 'c' | 'D' => 'd' | 'E' => 'e'
  | 'F' => 'f' | 'G' => 'g' | 'H' => 'h' | 'I' => 'i' | 'J' => 'j'
  | 'K' => 'k' | 'L' => 'l' | 'M' => 'm' | 'N' => 'n' | 'O' => 'o'
  | 'P' => 'p' | 'Q' => 'q' | 'R' => 'r' | 'S' => 's' | 'T' => 't'
  | 'U' => 'u' | 'V' => 'v' | 'W' => 'w' | 'X' => 'x' | 'Y' => 'y'
  | 'Z' => 'z'
  | c => c

/-- Tail of the snake-case conversion: `prev` is the previous character; an
underscore is inserted before an upper-case character that follows a
lower-case character or a digit (a case-transition boundary). -/
def snakeAux : Char → List Char → List Char
  | _, [] => []
  | prev, c :: cs =>
    if c.isUpper && (prev.isLower || prev.isDigit) then
      '_' :: lowerChar c :: snakeAux c cs
    else
      lowerChar c :: snakeAux c cs

/-- Modelled from the spec: snake-case conversion ("lower-case the name and
insert a separator at case-transition boundaries"), standing in for the
external `Inflector::to_snake_case`. -/
def toSnakeCase (s : String) : String :=
  match s.data with
  | [] => ""
  | c :: cs => String.mk (lowerChar c :: snakeAux c cs)

/-- Vowel test used by the pluralization rule for a trailing "y". -/
def isVowel (c : Char) : Bool :=
  c = 'a' || c = 'e' || c = 'i' || c = 'o' || c = 'u'

/-- Modelled from the spec: English pluralization on the character list
(trailing consonant+"y" becomes "ies"; trailing "s"/"x"/"z"/"ch"/"sh" appends
"es"; otherwise appends "s"), standing in for the external
`Inflector::to_plural`. -/
def pluralChars (cs : List Char) : List Char :=
  match cs.reverse with
  | 'y' :: p :: _ =>
      if p.isAlpha && !(isVowel p) then cs.dropLast ++ ['i', 'e', 's']
      else cs ++ ['s']
  | 's' :: _ => cs ++ ['e', 's']
  | 'x' :: _ => cs ++ ['e', 's']
  | 'z' :: _ => cs ++ ['e', 's']
  | 'h' :: c :: _ =>
      if c = 'c' || c = 's' then cs ++ ['e', 's'] else cs ++ ['s']
  | _ => cs ++ ['s']

/-- Modelled from the spec: English pluralization of a name. -/
def toPlural (s : String) : String := String.mk (pluralChars s.data)

/-- The finalized Identifier Set (`sj::StraitJacket`): the seven canonical
names, immutable once built. -/
structure StraitJacket where
  name : Ident
  name_snake : Ident
  name_and_metadata : Ident
  name_tag : Ident
  plural : Ident
  plural_snake : Ident
  metadata : Ident
deriving DecidableEq

/-- The naming builder (`builder::StraitJacketBuilder`): required base name
plus six optional override slots. -/
structure StraitJacketBuilder where
  name : Ident
  name_snake : Option Ident
  name_and_metadata : Option Ident
  name_tag : Option Ident
  plural : Option Ident
  plural_snake : Option Ident
  metadata : Option Ident
deriving DecidableEq

namespace StraitJacketBuilder

/-- `StraitJacketBuilder::new`: all override slots empty. -/
def new (name : Ident) : StraitJacketBuilder :=
  ⟨name, none, none, none, none, none, none⟩

/-- Setter generated by the `attribute!` macro for `name_snake`: replaces the
slot with `Ident::new value` (which panics on an invalid identifier). -/
def set_name_snake (b : StraitJacketBuilder) (value : String) : Option StraitJacketBuilder :=
  (identNew value).map fun i => { b with name_snake := some i }

/-- Setter generated by the `attribute!` macro for `name_and_metadata`. -/
def set_name_and_metadata (b : StraitJacketBuilder) (value : String) : Option StraitJacketBuilder :=
  (identNew value).map fun i => { b with name_and_metadata := some i }

/-- Setter generated by the `attribute!` macro for `name_tag`. -/
def set_name_tag (b : StraitJacketBuilder) (value : String) : Option StraitJacketBuilder :=
  (identNew value).map fun i => { b with name_tag := some i }

/-- Setter generated by the `attribute!` macro for `plural`. -/
def set_plural (b : StraitJacketBuilder) (value : String) : Option StraitJacketBuilder :=
  (identNew value).map fun i => { b with plural := some i }

/-- Setter generated by the `attribute!` macro for `plural_snake`. -/
def set_plural_snake (b : StraitJacketBuilder) (value : String) : Option StraitJacketBuilder :=
  (identNew value).map fun i => { b with plural_snake := some i }

/-- Setter generated by the `attribute!` macro for `metadata`. -/
def set_metadata (b : StraitJacketBuilder) (value : String) : Option StraitJacketBuilder :=
  (identNew value).map fun i => { b with metadata := some i }

/-- `StraitJacketBuilder::set`: dispatch on the recognized field names; any
other key is a no-op returning the builder unchanged. -/
def set (b : StraitJacketBuilder) (field value : String) : Option StraitJacketBuilder :=
  match field with
  | "name_snake" => b.set_name_snake value
  | "name_and_metadata" => b.set_name_and_metadata value
  | "name_tag" => b.set_name_tag value
  | "plural" => b.set_plural value
  | "plural_snake" => b.set_plural_snake value
  | "metadata" => b.set_metadata value
  | _ => some b

/-- Helper for `build`: `slot.unwrap_or_else(|| Ident::new(dflt))` — an
occupied slot is used as-is; an empty slot constructs a fresh identifier from
the default string (which can panic, modelled as `none`). -/
def orDefault (slot : Option Ident) (dflt : String) : Option Ident :=
  match slot with
  | some i => some i
  | none => identNew dflt

/-- `StraitJacketBuilder::build`: computes the default for every unset slot.
Note the local `plural` mirrors the source's `let plural = name_s.to_plural()`
and in particular the `plural_snake` default is the snake-case of that local
auto-pluralized value, not of the (possibly overridden) `plural` slot. -/
def build (b : StraitJacketBuilder) : Option StraitJacket :=
  let name_s := b.name
  let plural := toPlural name_s
  (orDefault b.name_snake (toSnakeCase name_s)).bind fun ns =>
  (orDefault b.name_and_metadata (name_s ++ "AndMetadata")).bind fun nam =>
  (orDefault b.name_tag (name_s ++ "Tag")).bind fun nt =>
  (orDefault b.plural plural).bind fun pl =>
  (orDefault b.plural_snake (toSnakeCase plural)).bind fun pls =>
  (orDefault b.metadata "Metadata").map fun md =>
  StraitJacket.mk name_s ns nam nt pl pls md

end StraitJacketBuilder

/-- The `syn::Lit` literal kinds the parser distinguishes: a string literal
versus every other literal kind. -/
inductive Lit where
  | str (value : String)
  | int (value : Int)
  | boolLit (value : Bool)
  | other
deriving DecidableEq

/-- A `syn::PathSegment`: an identifier plus whether generic arguments are
attached (`arguments.is_none()` is checked by `Path::get_ident`). -/
structure PathSegment where
  ident : String
  hasArguments : Bool
deriving DecidableEq

/-- A `syn::Path`: optional leading double-colon and a list of segments. -/
structure Path where
  leadingColon : Bool
  segments : List PathSegment
deriving DecidableEq

/-- `syn::Path::get_ident`: `some` exactly when there is no leading colon and
a single segment without generic arguments. -/
def Path.getIdent (p : Path) : Option String :=
  match p.segments with
  | [seg] => if !p.leadingColon && !seg.hasArguments then some seg.ident else none
  | _ => none

/-- A `syn::MetaNameValue`: a path key and a literal value. -/
structure MetaNameValue where
  path : Path
  lit : Lit
deriving DecidableEq

/-- A `syn::Meta`: a bare path, a meta list (its nested payload is not
inspected by this crate's parser and is omitted), or a name/value pair. -/
inductive Meta where
  | path (p : Path)
  | list (p : Path)
  | nameValue (mnv : MetaNameValue)
deriving DecidableEq

/-- A `syn::NestedMeta`: a meta item or a bare literal. -/
inductive NestedMeta where
  | meta (m : Meta)
  | lit (l : Lit)
deriving DecidableEq

/-- `parser::get_key_value`: `some (ident, lit)` when the value is a string
literal and the key path resolves to a single plain identifier, else `none`. -/
def get_key_value (mnv : MetaNameValue) : Option (String × Lit) :=
  match mnv.lit with
  | Lit.str _ =>
    match mnv.path.getIdent with
    | some ident => some (ident, mnv.lit)
    | none => none
  | _ => none

/-- `parser::get_attributes_and_values`: filter-map of `get_key_value` over
the name/value entries of the nested-meta list. -/
def get_attributes_and_values (nestedmetas : List NestedMeta) : List (String × Lit) :=
  nestedmetas.filterMap fun nestedmeta =>
    match nestedmeta with
    | NestedMeta.meta (Meta.nameValue mnv) => get_key_value mnv
    | _ => none

/-- Spec-side selection predicate, following the spec's words: an entry is
kept iff it is a key/value pair whose value is a string literal and whose key
resolves to a single plain (unqualified) identifier. -/
def specSelected : NestedMeta → Bool
  | NestedMeta.meta (Meta.nameValue mnv) =>
      (match mnv.lit with
       | Lit.str _ => true
       | _ => false) && mnv.path.getIdent.isSome
  | _ => false

/-- Spec-side projection of a selected entry to its (identifier, literal)
pair. -/
def specPair : NestedMeta → String × Lit
  | NestedMeta.meta (Meta.nameValue mnv) => (mnv.path.getIdent.getD "", mnv.lit)
  | _ => ("", Lit.other)

/-- Spec-side description of the parser output: keep exactly the selected
entries, in input order and without deduplication, projected to pairs. -/
def specAttributePairs (l : List NestedMeta) : List (String × Lit) :=
  (l.filter specSelected).map specPair

/-- The generated envelope type `#name_and_metadata` (generic in the item
type `α` and the metadata type `μ`): the item plus optional metadata. -/
structure NameAndMetadata (α μ : Type) where
  item : α
  metadata : Option μ
deriving DecidableEq

/-- The generated tag type `#name_tag`: a single-variant union wrapping the
envelope. -/
inductive NameTag (α μ : Type) where
  | Tag : NameAndMetadata α μ → NameTag α μ
deriving DecidableEq

/-- The generated collection type `#plural`: its sole field (named
`#plural_snake` in the generated source, called `tags` here) holds the
sequence of tags. -/
structure Plural (α μ : Type) where
  tags : List (NameTag α μ)
deriving DecidableEq

/-- The generated `impl From<Vec<#name>> for #plural`: wrap each item in an
envelope with `metadata: None`, wrap it in the `Tag` variant, and collect. -/
def vecToPlural (α μ : Type) (mrvec : List α) : Plural α μ :=
  ⟨mrvec.map fun item => NameTag.Tag (NameAndMetadata.mk item none)⟩

/-- The generated `impl From<#plural> for Vec<#name_and_metadata>`: unwrap
each tag (an irrefutable match on the sole variant) to its envelope. -/
def pluralToEnvelopeVec (α μ : Type) (mr : Plural α μ) : List (NameAndMetadata α μ) :=
  mr.tags.map fun t =>
    match t with
    | NameTag.Tag mramd => mramd

/-- The generated `impl From<#plural> for Vec<#name>`: unwrap each tag to its
envelope and keep only the item. -/
def pluralToVec (α μ : Type) (mr : Plural α μ) : List α :=
  mr.tags.map fun t =>
    match t with
    | NameTag.Tag mramd => mramd.item

/-- A concrete builder used by closed witness statements. -/
def builderExample : StraitJacketBuilder := StraitJacketBuilder.new "Plan"

/-- A concrete metadata-free collection used by closed witness statements. -/
def collectionExample : Plural Nat Nat :=
  ⟨[NameTag.Tag (NameAndMetadata.mk 5 none), NameTag.Tag (NameAndMetadata.mk 7 none)]⟩

/-- Lower-casing preserves being a valid identifier start character. -/
lemma lowerChar_identStart (c : Char) (h : isIdentStart c = true) :
    isIdentStart (lowerChar c) = true := by
  unfold lowerChar
  split <;> first | decide | exact h

/-- Lower-casing preserves being a valid identifier character. -/
lemma lowerChar_identChar (c : Char) (h : isIdentChar c = true) :
    isIdentChar (lowerChar c) = true := by
  unfold lowerChar
  split <;> first | decide | exact h

/-- The tail of the snake-case conversion emits only identifier characters
when fed identifier characters. -/
lemma snakeAux_all (prev : Char) (cs : List Char) (h : cs.all isIdentChar = true) :
    (snakeAux prev cs).all isIdentChar = true := by
  induction cs generalizing prev with
  | nil => rfl
  | cons c cs ih =>
    simp only [List.all_cons, Bool.and_eq_true] at h
    unfold snakeAux
    split
    · simp only [List.all_cons, Bool.and_eq_true]
      exact ⟨by decide, lowerChar_identChar c h.1, ih c h.2⟩
    · simp only [List.all_cons, Bool.and_eq_true]
      exact ⟨lowerChar_identChar c h.1, ih c h.2⟩

/-- Snake-case conversion preserves identifier validity. -/
lemma toSnakeCase_valid (s : String) (h : isValidIdent s = true) :
    isValidIdent (toSnakeCase s) = true := by
  unfold isValidIdent at h ⊢
  unfold toSnakeCase
  cases hd : s.data with
  | nil => rw [hd] at h; exact absurd h (by decide)
  | cons c cs =>
    rw [hd] at h
    show validIdentChars (lowerChar c :: snakeAux c cs) = true
    unfold validIdentChars at h ⊢
    simp only [Bool.and_eq_true] at h ⊢
    exact ⟨lowerChar_identStart c h.1, snakeAux_all c cs h.2⟩

/-- Appending identifier characters to a valid identifier keeps it valid. -/
lemma validIdentChars_append (cs sfx : List Char) (h1 : validIdentChars cs = true)
    (h2 : sfx.all isIdentChar = true) : validIdentChars (cs ++ sfx) = true := by
  cases cs with
  | nil => exact absurd h1 (by decide)
  | cons c cs =>
    simp only [List.cons_append]
    unfold validIdentChars at h1 ⊢
    simp only [Bool.and_eq_true, List.all_append] at h1 ⊢
    exact ⟨h1.1, h1.2, h2⟩

/-- A non-empty prefix of a valid identifier is itself a valid identifier. -/
lemma validIdentChars_of_append (l1 l2 : List Char)
    (h : validIdentChars (l1 ++ l2) = true) (hne : l1 ≠ []) :
    validIdentChars l1 = true := by
  cases l1 with
  | nil => exact absurd rfl hne
  | cons c cs =>
    simp only [List.cons_append] at h
    unfold validIdentChars at h ⊢
    simp only [Bool.and_eq_true, List.all_append] at h ⊢
    exact ⟨h.1, h.2.1⟩

/-- Pluralization preserves identifier validity. -/
lemma pluralChars_valid (cs : List Char) (h : validIdentChars cs = true) :
    validIdentChars (pluralChars cs) = true := by
  unfold pluralChars
  split
  next p rest heq =>
    split
    · have hcs : cs = (rest.reverse ++ [p]) ++ ['y'] := by
        have hrev := congrArg List.reverse heq
        simpa [List.append_assoc] using hrev
      have hdrop : cs.dropLast = rest.reverse ++ [p] := by
        rw [hcs, List.dropLast_concat]
      rw [hdrop]
      refine validIdentChars_append _ _ ?_ (by decide)
      refine validIdentChars_of_append _ ['y'] ?_ (by simp)
      rw [← hcs]; exact h
    · exact validIdentChars_append _ _ h (by decide)
  next => exact validIdentChars_append _ _ h (by decide)
  next => exact validIdentChars_append _ _ h (by decide)
  next => exact validIdentChars_append _ _ h (by decide)
  next =>
    split
    · exact validIdentChars_append _ _ h (by decide)
    · exact validIdentChars_append _ _ h (by decide)
  next => exact validIdentChars_append _ _ h (by decide)

/-- Pluralization of a valid identifier is a valid identifier. -/
lemma toPlural_valid (s : String) (h : isValidIdent s = true) :
    isValidIdent (toPlural s) = true :=
  pluralChars_valid s.data h

/-- Appending a string of identifier characters to a valid identifier keeps
it valid. -/
lemma isValidIdent_append (s t : String) (h : isValidIdent s = true)
    (ht : t.data.all isIdentChar = true) : isValidIdent (s ++ t) = true := by
  unfold isValidIdent at h ⊢
  rw [String.data_append]
  exact validIdentChars_append _ _ h ht

/-- When the default string is a valid identifier, `orDefault` succeeds and
returns the slot's value if present, else the default. -/
lemma orDefault_of_valid (slot : Option Ident) (d : String) (h : isValidIdent d = true) :
    StraitJacketBuilder.orDefault slot d = some (slot.getD d) := by
  cases slot <;> simp [StraitJacketBuilder.orDefault, identNew, h]

/-- Master lemma for `build`: for a valid base name, `build` succeeds and
each field is the override slot's value when set, else the derived default
(in particular `plural_snake` defaults to the snake-case of the
auto-pluralized base name). -/
lemma build_eq (b : StraitJacketBuilder) (h : isValidIdent b.name = true) :
    b.build = some (StraitJacket.mk b.name
      (b.name_snake.getD (toSnakeCase b.name))
      (b.name_and_metadata.getD (b.name ++ "AndMetadata"))
      (b.name_tag.getD (b.name ++ "Tag"))
      (b.plural.getD (toPlural b.name))
      (b.plural_snake.getD (toSnakeCase (toPlural b.name)))
      (b.metadata.getD "Metadata")) := by
  simp only [StraitJacketBuilder.build]
  rw [orDefault_of_valid _ _ (toSnakeCase_valid _ h),
      orDefault_of_valid _ _ (isValidIdent_append _ _ h (by decide)),
      orDefault_of_valid _ _ (isValidIdent_append _ _ h (by decide)),
      orDefault_of_valid _ _ (toPlural_valid _ h),
      orDefault_of_valid _ _ (toSnakeCase_valid _ (toPlural_valid _ h)),
      orDefault_of_valid _ _ (by decide)]
  rfl

/-- Unwrapping one parser entry: `get_key_value` keeps exactly the pairs whose
value is a string literal and whose key path is a single plain identifier. -/
lemma get_key_value_eq (p : Path) (lit : Lit) :
    get_key_value (MetaNameValue.mk p lit)
      = if ((match lit with
             | Lit.str _ => true
             | _ => false) && p.getIdent.isSome) = true
        then some (p.getIdent.getD "", lit) else none := by
  cases lit <;> cases hid : p.getIdent <;> simp [get_key_value, hid]

/-- Round-trip helper on the tag list: re-wrapping the items of a list of
tags whose envelopes all carry no metadata reproduces the list. -/
lemma tags_round_trip {α μ : Type} (l : List (NameTag α μ))
    (h : ∀ t ∈ l, ∃ x : α, t = NameTag.Tag (NameAndMetadata.mk x none)) :
    l.map ((fun item => NameTag.Tag (NameAndMetadata.mk item none)) ∘
      (fun t => match t with | NameTag.Tag mramd => mramd.item)) = l := by
  induction l with
  | nil => rfl
  | cons t tl ih =>
    obtain ⟨x, rfl⟩ := h t (List.mem_cons_self _ _)
    simp only [List.map_cons, Function.comp_apply]
    rw [ih fun u hu => h u (List.mem_cons_of_mem _ hu)]

/-- C1 counterexample: with base name "Plan" and override `plural = "Plans2"`
and no `plural_snake` override, `build` yields `plural_snake = "plans"` — the
snake-case of the auto-pluralized base — while the snake-case of the
overridden plural is "plans2", a different string. This refutes the claim
that `plural_snake` is derived from the overridden plural. -/
theorem C1_counterexample :
    (((StraitJacketBuilder.new "Plan").set "plural" "Plans2").bind
        StraitJacketBuilder.build).map StraitJacket.plural_snake = some "plans" ∧
    toSnakeCase "Plans2" = "plans2" ∧ ("plans" : String) ≠ "plans2" := by
  refine ⟨?_, ?_, ?_⟩ <;> decide

/-- C1 (amended): for every valid base name on which the caller overrides
`plural` (with any valid value) but not `plural_snake`, the Identifier Set
produced by `build` has `plural_snake` equal to the snake-case of the
auto-pluralized base name — the `plural` override does not feed into the
`plural_snake` default. -/
theorem C1_amended_plural_snake (name v : String)
    (hn : isValidIdent name = true) (hv : isValidIdent v = true) :
    (((StraitJacketBuilder.new name).set "plural" v).bind
        StraitJacketBuilder.build).map StraitJacket.plural_snake
      = some (toSnakeCase (toPlural name)) := by
  have hset : (StraitJacketBuilder.new name).set "plural" v
      = some (StraitJacketBuilder.mk name none none none (some v) none none) := by
    simp [StraitJacketBuilder.set, StraitJacketBuilder.set_plural, identNew, hv,
      StraitJacketBuilder.new]
  rw [hset]
  show ((StraitJacketBuilder.mk name none none none (some v) none none).build).map
      StraitJacket.plural_snake = _
  rw [build_eq (StraitJacketBuilder.mk name none none none (some v) none none) hn]
  rfl

/-- C1 witness: the amended theorem applied at base "Plan" with plural
override "Plans2". -/
theorem C1_amended_plural_snake_witness :
    isValidIdent "Plan" = true ∧ isValidIdent "Plans2" = true ∧
    (((StraitJacketBuilder.new "Plan").set "plural" "Plans2").bind
        StraitJacketBuilder.build).map StraitJacket.plural_snake
      = some (toSnakeCase (toPlural "Plan")) :=
  ⟨by decide, by decide, C1_amended_plural_snake "Plan" "Plans2" (by decide) (by decide)⟩

/-- C2: for every finite sequence of items, converting the list to the tagged
collection and back to an item list returns the same list — same length, same
values, same order. -/
theorem C2_round_trip (α μ : Type) (L : List α) :
    pluralToVec α μ (vecToPlural α μ L) = L := by
  simp only [pluralToVec, vecToPlural, List.map_map]
  exact List.map_id L

/-- C3: the list-to-collection conversion wraps each item in an envelope with
absent metadata inside the single `Tag` variant, placing them in the
collection's sole field: the output has exactly the input's length and, at
every index, is the wrapping of the input's item at that index. -/
theorem C3_wrap_shape (α μ : Type) (L : List α) :
    (vecToPlural α μ L).tags.length = L.length ∧
    ∀ i : Fin L.length,
      (vecToPlural α μ L).tags.get (Fin.cast (by simp [vecToPlural]) i) =
        NameTag.Tag (NameAndMetadata.mk (L.get i) none) := by
  constructor
  · simp [vecToPlural]
  · intro i
    simp [vecToPlural]

/-- C4: `build` is total: for every builder (whose base name is a valid
identifier, which holds for every builder the macro constructs), `build`
returns an Identifier Set and never fails. -/
theorem C4_build_total (b : StraitJacketBuilder) (h : isValidIdent b.name = true) :
    b.build.isSome = true := by
  rw [build_eq b h]; rfl

/-- C4 witness: `build` succeeds on a concrete builder. -/
theorem C4_build_total_witness :
    isValidIdent builderExample.name = true ∧ builderExample.build.isSome = true :=
  ⟨by decide, C4_build_total builderExample (by decide)⟩

/-- C5: the parser yields exactly the entries that are key/value pairs with a
string-literal value and a single plain identifier key, as (identifier,
literal) pairs, dropping all other entries, preserving input order and not
deduplicating — stated as equality with the spec-side filter-and-project
description. -/
theorem C5_parser_exact (l : List NestedMeta) :
    get_attributes_and_values l = specAttributePairs l := by
  induction l with
  | nil => rfl
  | cons nm tl ih =>
    unfold get_attributes_and_values specAttributePairs at ih ⊢
    rw [List.filterMap_cons, List.filter_cons]
    cases nm with
    | lit lv => simpa [specSelected] using ih
    | meta m =>
      cases m with
      | path p => simpa [specSelected] using ih
      | list p => simpa [specSelected] using ih
      | nameValue mnv =>
        obtain ⟨p, lit⟩ := mnv
        dsimp only
        rw [get_key_value_eq]
        by_cases hsel :
            ((match lit with
              | Lit.str _ => true
              | _ => false) && p.getIdent.isSome) = true
        · simp [specSelected, specPair, hsel, ih]
        · simp [specSelected, specPair, hsel, ih]

/-- C6: `set` with any key other than the six recognized field names is a
no-op: it returns the builder with all seven slots unchanged, for every
value. -/
theorem C6_unknown_key_noop (b : StraitJacketBuilder) (k v : String)
    (h : ¬ k ∈ (["name_snake", "name_and_metadata", "name_tag", "plural",
        "plural_snake", "metadata"] : List String)) :
    b.set k v = some b := by
  unfold StraitJacketBuilder.set
  split <;> simp_all

/-- C6 witness: `set` with an unrecognized key on a concrete builder. -/
theorem C6_unknown_key_noop_witness :
    ¬ ("frobnicate" ∈ (["name_snake", "name_and_metadata", "name_tag", "plural",
        "plural_snake", "metadata"] : List String)) ∧
    builderExample.set "frobnicate" "Whatever" = some builderExample :=
  ⟨by decide, C6_unknown_key_noop builderExample "frobnicate" "Whatever" (by decide)⟩

/-- C7: setting the same recognized field twice behaves as if only the second
value had been set (last write wins), and each call returns the updated
builder so calls chain. -/
theorem C7_last_write_wins (b : StraitJacketBuilder) (f v1 v2 : String)
    (hf : f ∈ (["name_snake", "name_and_metadata", "name_tag", "plural",
        "plural_snake", "metadata"] : List String))
    (h1 : isValidIdent v1 = true) (h2 : isValidIdent v2 = true) :
    (b.set f v1).bind (fun b1 => b1.set f v2) = b.set f v2 := by
  fin_cases hf <;>
    simp [StraitJacketBuilder.set, StraitJacketBuilder.set_name_snake,
      StraitJacketBuilder.set_name_and_metadata, StraitJacketBuilder.set_name_tag,
      StraitJacketBuilder.set_plural, StraitJacketBuilder.set_plural_snake,
      StraitJacketBuilder.set_metadata, identNew, h1, h2]

/-- C7 witness: overriding `plural` twice on a concrete builder keeps only
the second value. -/
theorem C7_last_write_wins_witness :
    ("plural" ∈ (["name_snake", "name_and_metadata", "name_tag", "plural",
        "plural_snake", "metadata"] : List String)) ∧
    isValidIdent "PlanA" = true ∧ isValidIdent "PlanB" = true ∧
    (builderExample.set "plural" "PlanA").bind (fun b1 => b1.set "plural" "PlanB")
      = builderExample.set "plural" "PlanB" :=
  ⟨by decide, by decide, by decide,
    C7_last_write_wins builderExample "plural" "PlanA" "PlanB"
      (by decide) (by decide) (by decide)⟩

/-- C8: with no overrides, `build` derives exactly: `name_snake` the
snake-case of the base, envelope name the base plus "AndMetadata", tag name
the base plus "Tag", `plural` the pluralization of the base, `plural_snake`
the snake-case of that plural, and `metadata` the literal "Metadata". -/
theorem C8_default_derivation (name : String) (h : isValidIdent name = true) :
    (StraitJacketBuilder.new name).build = some (StraitJacket.mk name
      (toSnakeCase name) (name ++ "AndMetadata") (name ++ "Tag")
      (toPlural name) (toSnakeCase (toPlural name)) "Metadata") := by
  rw [build_eq (StraitJacketBuilder.new name) h]
  rfl

/-- C8 witness: default derivation at base name "MappingRule". -/
theorem C8_default_derivation_witness :
    isValidIdent "MappingRule" = true ∧
    (StraitJacketBuilder.new "MappingRule").build = some (StraitJacket.mk "MappingRule"
      (toSnakeCase "MappingRule") ("MappingRule" ++ "AndMetadata") ("MappingRule" ++ "Tag")
      (toPlural "MappingRule") (toSnakeCase (toPlural "MappingRule")) "Metadata") :=
  ⟨by decide, C8_default_derivation "MappingRule" (by decide)⟩

/-- C9: a value that is not a well-formed identifier token (here one starting
with a digit) makes both the direct setter and `set` with a recognized key
fail (the identifier constructor panics, modelled as `none`), so the setters
are total only under the precondition that the value is a valid identifier. -/
theorem C9_invalid_value_panics (b : StraitJacketBuilder) :
    b.set_plural "9bad" = none ∧ b.set "plural" "9bad" = none :=
  ⟨rfl, rfl⟩

/-- C10: on every collection whose envelopes all have absent metadata, the
collection-to-item-list conversion followed by the list-to-collection
conversion is the identity. -/
theorem C10_metadata_free_round_trip (α μ : Type) (c : Plural α μ)
    (h : ∀ e ∈ pluralToEnvelopeVec α μ c, e.metadata = none) :
    vecToPlural α μ (pluralToVec α μ c) = c := by
  obtain ⟨tags⟩ := c
  have htags : ∀ t ∈ tags, ∃ x : α, t = NameTag.Tag (NameAndMetadata.mk x none) := by
    intro t ht
    obtain ⟨⟨x, m⟩⟩ := t
    refine ⟨x, ?_⟩
    have hme : (NameAndMetadata.mk x m).metadata = none := by
      apply h
      simp only [pluralToEnvelopeVec]
      exact List.mem_map.mpr ⟨_, ht, rfl⟩
    have hm : m = none := hme
    rw [hm]
  simp only [vecToPlural, pluralToVec, List.map_map, Plural.mk.injEq]
  exact tags_round_trip tags htags

/-- C10 witness: the round trip is the identity on a concrete metadata-free
collection. -/
theorem C10_metadata_free_round_trip_witness :
    (∀ e ∈ pluralToEnvelopeVec Nat Nat collectionExample, e.metadata = none) ∧
    vecToPlural Nat Nat (pluralToVec Nat Nat collectionExample) = collectionExample :=
  ⟨by decide, C10_metadata_free_round_trip Nat Nat collectionExample (by decide)⟩

end Straitjacket
